import Mathlib

/-!
Verification of the hs-code-web repository (HS-code classification web app).

The Python sources are shallowly embedded below.  Strings are modelled as
`String` / `List Char`, Python floats as exact rationals (`ℚ`; every numeric
literal the claims exercise is decimally representable), and the two remote
services (the hosted chat-completion API and the caselaw hierarchy page) as
explicit oracle parameters, with the outgoing requests logged in the result.

Conventions:
* functions keep the Python names (`format_hs_code`, `parse_thickness_from_text`,
  `candidate_matches_specs`, ...);
* the Python `re` patterns are embedded as hand-rolled deterministic matchers
  over `List Char` that reproduce the engine's leftmost-scan, alternation-order
  and greedy/backtracking behaviour on these particular patterns;
* `str.lower()` is embedded for the ASCII range (the non-ASCII characters
  appearing in the vocabulary lists and the inputs below are already
  lowercase), and `\w` covers ASCII word characters (all inputs in scope are
  ASCII around the match positions).
-/

namespace HsWeb

/-! ### Basic character / string helpers -/

/-- ASCII lowercasing of one character (embedding of `str.lower` for the
character range exercised here; non-ASCII characters are left unchanged). -/
def lowerChar (c : Char) : Char :=
  if 'A' ≤ c ∧ c ≤ 'Z' then Char.ofNat (c.toNat + 32) else c

def lowerStr (s : String) : String :=
  String.mk (s.data.map lowerChar)

/-- Python `\s` / `str.strip()` whitespace set. -/
def pyIsSpace (c : Char) : Bool :=
  c = ' ' || c = '\t' || c = '\n' || c = '\x0d' || c = '\x0b' || c = '\x0c'

/-- Python `str.strip()` with the default whitespace set. -/
def pyStripList (cs : List Char) : List Char :=
  ((cs.dropWhile pyIsSpace).reverse.dropWhile pyIsSpace).reverse

def pyStrip (s : String) : String :=
  String.mk (pyStripList s.data)

/-- Python `str.strip(chars)` — strip any of the given characters from both
ends. -/
def pyStripCharsList (strip : List Char) (cs : List Char) : List Char :=
  ((cs.dropWhile (strip.contains ·)).reverse.dropWhile (strip.contains ·)).reverse

def pyStripChars (strip : List Char) (s : String) : String :=
  String.mk (pyStripCharsList strip s.data)

/-- Substring containment, Python's `needle in hay`. -/
def listContainsSub (needle hay : List Char) : Bool :=
  hay.tails.any (fun t => needle.isPrefixOf t)

def strContainsSub (hay needle : String) : Bool :=
  listContainsSub needle.data hay.data

/-- `re.sub(r"\D", "", s)` — keep only decimal digits. -/
def stripNonDigits (s : String) : String :=
  String.mk (s.data.filter Char.isDigit)

/-- Python slice `s[:n]`. -/
def pyTake (n : Nat) (s : String) : String :=
  String.mk (s.data.take n)

/-- Python `"\n".join(lines)`. -/
def joinNL : List String → String
  | [] => ""
  | [x] => x
  | x :: xs => x ++ "\n" ++ joinNL xs

/-- Python `sep.join(parts)`. -/
def joinSep (sep : String) : List String → String
  | [] => ""
  | [x] => x
  | x :: xs => x ++ sep ++ joinSep sep xs

/-- Python `s.replace("\n", " ")`. -/
def replaceNLBySpace (s : String) : String :=
  String.mk (s.data.map (fun c => if c = '\n' then ' ' else c))

/-! ### `format_hs_code`  (src/model_client.py lines 21–27; the identical copy
at src/hs_search.py lines 117–123 is covered by the same definition). -/

def format_hs_code (hs : String) : String :=
  let digits := stripNonDigits hs
  if digits.data.length = 8 then
    String.mk (digits.data.take 4) ++ "." ++
      String.mk ((digits.data.drop 4).take 2) ++ "." ++
      String.mk (digits.data.drop 6)
  else if digits.data.length = 6 then
    String.mk (digits.data.take 4) ++ "." ++ String.mk (digits.data.drop 4)
  else
    hs

/-! ### Mini regex machinery

The Python patterns used by the classifier are embedded as deterministic
matchers over `List Char`.  A matcher takes the text at the current position
and returns the parsed result with the rest of the text after the match.
On these specific patterns Python's greedy/backtracking behaviour coincides
with the deterministic maximal-munch implemented here (shrinking a greedy
digit run can never make the following `[.,]`, `\s` or literal match). -/

/-- Literal match: `some rest` when `lit` is a prefix of `cs`. -/
def matchLit (lit cs : List Char) : Option (List Char) :=
  if lit.isPrefixOf cs then some (cs.drop lit.length) else none

def skipSpaces (cs : List Char) : List Char :=
  cs.dropWhile pyIsSpace

def digitsToNat (ds : List Char) : Nat :=
  ds.foldl (fun a c => 10 * a + (c.toNat - 48)) 0

/-- `[0-9]+(?:[\.,][0-9]+)?` — greedy decimal number.  Returns the matched
characters with `,` normalised to `.` (the source applies
`.replace(",", ".")` before `float(...)`), the exact rational value, and the
rest of the text. -/
def matchNumber (cs : List Char) : Option ((List Char × ℚ) × List Char) :=
  let ds := cs.takeWhile Char.isDigit
  let rest := cs.drop ds.length
  if ds.isEmpty then none
  else
    match rest with
    | sep :: rest2 =>
      if sep = '.' ∨ sep = ',' then
        let fs := rest2.takeWhile Char.isDigit
        let rest3 := rest2.drop fs.length
        if fs.isEmpty then some ((ds, (digitsToNat ds : ℚ)), rest)
        else
          some ((ds ++ '.' :: fs,
                 (digitsToNat ds : ℚ) + (digitsToNat fs : ℚ) / ((10 : ℚ) ^ fs.length)),
                rest3)
      else some ((ds, (digitsToNat ds : ℚ)), rest)
    | [] => some ((ds, (digitsToNat ds : ℚ)), [])

/-- Ordered alternation `(a1|a2|...)` followed by a continuation, with the
regex engine's backtracking into the next alternative when the continuation
fails. -/
def tryAlts {α : Type} (k : List Char → Option α) :
    List (List Char) → List Char → Option α
  | [], _ => none
  | a :: as', cs =>
    match matchLit a cs with
    | some rest =>
      match k rest with
      | some x => some x
      | none => tryAlts k as' cs
    | none => tryAlts k as' cs

/-- `re.finditer`: scan left to right, emit non-overlapping matches, advance
past each match (our matchers always consume at least one character), else
advance one position.  `fuel` is the length of the scanned text. -/
def finditerAux {α : Type} (m : List Char → Option (α × List Char)) :
    Nat → List Char → List α
  | 0, _ => []
  | _, [] => []
  | fuel + 1, cs@(_ :: rest) =>
    match m cs with
    | some (a, r) => a :: finditerAux m fuel r
    | none => finditerAux m fuel rest

def finditer {α : Type} (m : List Char → Option (α × List Char)) (s : String) :
    List α :=
  finditerAux m s.data.length s.data

/-- `re.search`: first position (left to right, including the end position)
where the matcher succeeds. -/
def reSearch {α : Type} (m : List Char → Option α) : List Char → Option α
  | [] => m []
  | cs@(_ :: rest) =>
    match m cs with
    | some a => some a
    | none => reSearch m rest

/-! ### Thickness / specs parsing  (src/model_client.py lines 30–108) -/

/-- `\s*NUM\s*mm` continuation used by the qualifier patterns. -/
def numSpacesMM (cs : List Char) : Option (ℚ × List Char) :=
  match matchNumber (skipSpaces cs) with
  | some ((_, v), rest) =>
    match matchLit "mm".data (skipSpaces rest) with
    | some rest2 => some (v, rest2)
    | none => none
  | none => none

/-- `(dưới|<|ít hơn|không quá|<=|≤)\s*NUM\s*mm` (alternatives in source
order). -/
def patLtMatcher : List Char → Option (ℚ × List Char) :=
  tryAlts numSpacesMM
    ["dưới".data, "<".data, "ít hơn".data, "không quá".data, "<=".data, "≤".data]

/-- `(trên|>|lớn hơn|>=|≥)\s*NUM\s*mm`. -/
def patGtMatcher : List Char → Option (ℚ × List Char) :=
  tryAlts numSpacesMM
    ["trên".data, ">".data, "lớn hơn".data, ">=".data, "≥".data]

/-- `NUM\s*-\s*NUM\s*mm` — the numeric range pattern. -/
def patRangeMatcher (cs : List Char) : Option ((ℚ × ℚ) × List Char) :=
  match matchNumber cs with
  | some ((_, a), r1) =>
    match matchLit "-".data (skipSpaces r1) with
    | some r2 =>
      match matchNumber (skipSpaces r2) with
      | some ((_, b), r3) =>
        match matchLit "mm".data (skipSpaces r3) with
        | some r4 => some ((a, b), r4)
        | none => none
      | none => none
    | none => none
  | none => none

/-- `NUM\s*mm` — bare number with unit; also the matcher behind
`extract_numbers_from_text`.  Returns both the (normalised) matched number
text and its value. -/
def numMMMatcher (cs : List Char) : Option ((List Char × ℚ) × List Char) :=
  match matchNumber cs with
  | some ((txt, v), rest) =>
    match matchLit "mm".data (skipSpaces rest) with
    | some rest2 => some ((txt, v), rest2)
    | none => none
  | none => none

/-- Lazy gap `.{0,20}?` (no newline) followed by `NUM`: smallest gap whose
end position starts a number. -/
def lazyGapNum : Nat → List Char → Option (ℚ × List Char)
  | fuel, cs =>
    match matchNumber cs with
    | some ((_, v), rest) => some (v, rest)
    | none =>
      match fuel, cs with
      | 0, _ => none
      | _, [] => none
      | f + 1, c :: rest => if c = '\n' then none else lazyGapNum f rest

/-- `(dày|độ dày).{0,20}?NUM\s*(mm)?` (alternatives in source order; the
greedy `\s*` and optional `mm` only move the match end). -/
def patDayMatcher : List Char → Option (ℚ × List Char) :=
  tryAlts
    (fun rest =>
      match lazyGapNum 20 rest with
      | some (v, afterNum) =>
        let afterSp := skipSpaces afterNum
        match matchLit "mm".data afterSp with
        | some rest2 => some (v, rest2)
        | none => some (v, afterSp)
      | none => none)
    ["dày".data, "độ dày".data]

/-- `parse_thickness_from_text` (lines 30–81): list of
`(comparator?, value-in-mm)` pairs.  Note the range pattern's upper bound is
labelled `"<= "` with a stray trailing space, exactly as in the source. -/
def parse_thickness_from_text (text : String) : List (Option String × ℚ) :=
  let t := lowerStr text
  (finditer (fun cs => (patLtMatcher cs).map (fun (v, r) => ((some "<=", v), r))) t) ++
  (finditer (fun cs => (patGtMatcher cs).map (fun (v, r) => ((some ">=", v), r))) t) ++
  ((finditer patRangeMatcher t).flatMap
    (fun ab => [(some ">=", ab.1), (some "<= ", ab.2)])) ++
  (finditer (fun cs => (numMMMatcher cs).map (fun (tv, r) => ((some "==", tv.2), r))) t) ++
  (finditer (fun cs => (patDayMatcher cs).map (fun (v, r) => (((none : Option String), v), r))) t)

/-- Material vocabulary (line 94). -/
def materialVocab : List String :=
  ["mdf", "ván mdf", "ván", "gỗ", "fiberboard", "hdf", "plywood", "veneer"]

/-- Situational keyword vocabulary (line 100) — note the duplicated
`"trẻ em"` entry, kept as in the source. -/
def keywordVocab : List String :=
  ["trẻ em", "trẻ-em", "child", "baby", "giày", "trẻ em"]

structure Specs where
  material : List String
  keywords : List String
  thickness : List (Option String × ℚ)
deriving DecidableEq

/-- `parse_specs_from_query` (lines 84–108). -/
def parse_specs_from_query (query : String) : Specs :=
  let q := lowerStr query
  ⟨materialVocab.filter (fun m => strContainsSub q m),
   keywordVocab.filter (fun k => strContainsSub q k),
   parse_thickness_from_text q⟩

/-- `extract_numbers_from_text` (lines 111–120): all `NUM mm` values in the
lowercased text. -/
def extract_numbers_from_text (text : String) : List ℚ :=
  (finditer numMMMatcher (lowerStr text)).map Prod.snd

/-! ### Candidate scoring and filtering  (src/model_client.py lines 123–222) -/

structure Row where
  hs_code : String
  description : String
  ten_hang : String
  source_file : String
deriving DecidableEq

def defaultRow : Row := ⟨"", "", "", ""⟩

instance : Inhabited Row := ⟨defaultRow⟩

/-- The lowercased searchable text of a row: the truthy fields among
`ten_hang`, `description`, joined with `" | "` (lines 133–138). -/
def rowSearchText (row : Row) : String :=
  joinSep " | "
    ((if row.ten_hang ≠ "" then [lowerStr row.ten_hang] else []) ++
     (if row.description ≠ "" then [lowerStr row.description] else []))

/-- `abs(n - val) < 1e-6` on exact rationals, computed on cross-multiplied
components (denominators are positive, so
`|n - val| < 1/10^6  ↔  10^6 * |num n * den val - num val * den n| <
den n * den val`). -/
def eqWithinMillionth (n val : ℚ) : Bool :=
  decide (1000000 * (n.num * (val.den : Int) - val.num * (n.den : Int)).natAbs <
    n.den * val.den)

/-- One candidate number against one thickness constraint — the three
sequential `if`s of lines 166–181.  The first condition is
`comp in ("<", "<=") or comp is None and comp != ">="`, i.e.
`comp ∈ {"<", "<="} ∨ comp = None`; the range label `"<= "` (trailing
space) satisfies none of the three conditions. -/
def satisfiesThick (comp : Option String) (val n : ℚ) : Bool :=
  ((comp == some "<" || comp == some "<=" || comp == none) && decide (n ≤ val)) ||
  ((comp == some ">" || comp == some ">=") && decide (val ≤ n)) ||
  ((comp == some "==") && eqWithinMillionth n val)

/-- Textual fallback (lines 186–193): qualifier + `int(val)` + `mm` searched
in the raw candidate text.  Python `int()` truncates toward zero. -/
def pyInt (q : ℚ) : Int :=
  if 0 ≤ q then q.floor else q.ceil

def fallbackSearch (quals : List (List Char)) (val : ℚ) (desc : String) : Bool :=
  let numLit := (toString (pyInt val)).data
  (reSearch
    (tryAlts
      (fun rest =>
        match matchLit numLit (skipSpaces rest) with
        | some r2 =>
          match matchLit "mm".data (skipSpaces r2) with
          | some _ => some ()
          | none => none
        | none => none)
      quals)
    desc.data).isSome

def fallbackLeQuals : List (List Char) :=
  ["không quá".data, "dưới".data, "ít hơn".data, "<=".data, "≤".data]

def fallbackGeQuals : List (List Char) :=
  ["trên".data, "lớn hơn".data, ">=".data, "≥".data]

/-- Contribution of one thickness constraint (the body of the
`for comp, val in th_specs` loop, lines 163–193): `(matched?, score added)`.
With candidate numbers present, the first satisfying number adds `+20`;
with none, the textual fallback applies only to the exact labels `"<="` and
`">="`. -/
def constraintContribution (comp : Option String) (val : ℚ) (nums : List ℚ)
    (desc : String) : Bool × Nat :=
  if nums.isEmpty then
    if comp == some "<=" && fallbackSearch fallbackLeQuals val desc then (true, 20)
    else if comp == some ">=" && fallbackSearch fallbackGeQuals val desc then (true, 20)
    else (false, 0)
  else if nums.any (satisfiesThick comp val) then (true, 20)
  else (false, 0)

/-- `candidate_matches_specs` (lines 123–195): `(matched, score)`. -/
def candidate_matches_specs (row : Row) (specs : Specs) : Bool × Nat :=
  let desc := rowSearchText row
  let p1 := specs.material.foldl
    (fun (p : Bool × Nat) m =>
      if m ≠ "" && strContainsSub desc m then (true, p.2 + 10) else p)
    (false, 0)
  let p2 := specs.keywords.foldl
    (fun (p : Bool × Nat) k =>
      if k ≠ "" && strContainsSub desc k then (true, p.2 + 5) else p)
    p1
  let cand_nums := extract_numbers_from_text desc
  let p3 : Bool × Nat := (p2.1, if cand_nums.isEmpty then p2.2 else p2.2 + 1)
  specs.thickness.foldl
    (fun (p : Bool × Nat) cv =>
      let fa := constraintContribution cv.1 cv.2 cand_nums desc
      (p.1 || fa.1, p.2 + fa.2))
    p3

/-- Stable insertion into a descending-by-score list: an element coming from
earlier in the original list is placed before equal scores, matching
Python's stable `sort(..., reverse=True)`. -/
def insertScoredDesc (x : Nat × Row) : List (Nat × Row) → List (Nat × Row)
  | [] => [x]
  | y :: ys => if x.1 ≥ y.1 then x :: y :: ys else y :: insertScoredDesc x ys

def sortScoredDesc : List (Nat × Row) → List (Nat × Row)
  | [] => []
  | x :: xs => insertScoredDesc x (sortScoredDesc xs)

/-- `filter_candidates_by_specs` (lines 198–222). -/
def filter_candidates_by_specs (candidates : List Row) (specs : Specs) :
    List Row :=
  let scored := sortScoredDesc
    (candidates.map (fun r => ((candidate_matches_specs r specs).2, r)))
  match scored with
  | [] => candidates
  | (s0, _) :: _ =>
    if s0 = 0 then candidates
    else
      let filtered := (scored.filter (fun p => 0 < p.1)).map Prod.snd
      if filtered.isEmpty then candidates else filtered.take 12

/-! ### HS-token extraction  (src/model_client.py lines 228–230 and the
identical regex at src/app.py lines 15–22)

The pattern is `\b\d{4}(?:\.\d{2}(?:\.\d{2})?)?\b`.  `isWordChar` embeds `\w`
for the ASCII range (the Python pattern additionally counts non-ASCII
letters as word characters; every text whose extraction the claims exercise
is ASCII at and around the match positions). -/

def isWordChar (c : Char) : Bool :=
  c.isAlphanum || c = '_'

/-- Word-boundary before the match: start of text or a non-word character. -/
def boundaryOk (prev : Option Char) : Bool :=
  match prev with
  | none => true
  | some c => !isWordChar c

/-- Word-boundary after the match: end of text or a non-word character. -/
def afterBoundary (cs : List Char) : Bool :=
  match cs with
  | [] => true
  | c :: _ => !isWordChar c

/-- `\.\d{2}` at the current position. -/
def matchDot2 (cs : List Char) : Option (List Char × List Char) :=
  match cs with
  | '.' :: a :: b :: rest =>
    if a.isDigit && b.isDigit then some (['.', a, b], rest) else none
  | _ => none

/-- The regex attempted at one position, with the engine's greedy
backtracking: the optional dotted groups are tried longest-first and each
attempt must pass the trailing word-boundary check. -/
def hsMatchAt (prev : Option Char) (cs : List Char) : Option (List Char) :=
  if !boundaryOk prev then none
  else
    match cs with
    | a :: b :: c :: d :: rest =>
      if a.isDigit && b.isDigit && c.isDigit && d.isDigit then
        let d4 := [a, b, c, d]
        match matchDot2 rest with
        | some (g1, rest1) =>
          match matchDot2 rest1 with
          | some (g2, rest2) =>
            if afterBoundary rest2 then some (d4 ++ g1 ++ g2)
            else if afterBoundary rest1 then some (d4 ++ g1)
            else if afterBoundary rest then some d4
            else none
          | none =>
            if afterBoundary rest1 then some (d4 ++ g1)
            else if afterBoundary rest then some d4
            else none
        | none => if afterBoundary rest then some d4 else none
      else none
    | _ => none

/-- `re.search` for the HS pattern: first position, left to right. -/
def hsSearchAux : Option Char → List Char → Option (List Char)
  | prev, [] => hsMatchAt prev []
  | prev, cs@(c :: rest) =>
    match hsMatchAt prev cs with
    | some tok => some tok
    | none => hsSearchAux (some c) rest

/-- `_extract_hs_from_output` (src/model_client.py lines 228–230). -/
def _extract_hs_from_output (text : String) : Option String :=
  (hsSearchAux none text.data).map String.mk

/-- Claim-side token grammar, written from the spec's words: an HS-shaped
token is 4 digits, or 4 digits `.` 2 digits, or 4 digits `.` 2 digits `.`
2 digits. -/
def specIsHsToken : List Char → Bool
  | [a, b, c, d] => a.isDigit && b.isDigit && c.isDigit && d.isDigit
  | [a, b, c, d, p, e, f] =>
    a.isDigit && b.isDigit && c.isDigit && d.isDigit &&
      p = '.' && e.isDigit && f.isDigit
  | [a, b, c, d, p, e, f, q, g, h] =>
    a.isDigit && b.isDigit && c.isDigit && d.isDigit &&
      p = '.' && e.isDigit && f.isDigit && q = '.' && g.isDigit && h.isDigit
  | _ => false

/-- All word-boundary-delimited HS-shaped tokens starting at the current
position, in increasing length order. -/
def specTokensAt (prev : Option Char) (cs : List Char) : List (List Char) :=
  if !boundaryOk prev then []
  else
    match cs with
    | a :: b :: c :: d :: rest =>
      if a.isDigit && b.isDigit && c.isDigit && d.isDigit then
        let d4 := [a, b, c, d]
        (if afterBoundary rest then [d4] else []) ++
        (match matchDot2 rest with
         | some (g1, rest1) =>
           (if afterBoundary rest1 then [d4 ++ g1] else []) ++
           (match matchDot2 rest1 with
            | some (g2, rest2) =>
              if afterBoundary rest2 then [d4 ++ g1 ++ g2] else []
            | none => [])
         | none => [])
      else []
    | _ => []

/-- Longest of a list of candidate tokens (first wins on equal length). -/
def longestTok (ts : List (List Char)) : Option (List Char) :=
  ts.foldl
    (fun acc t =>
      match acc with
      | none => some t
      | some u => if u.length < t.length then some t else acc)
    none

/-- The claim-side extractor: at the earliest position holding any
HS-shaped token, the longest such token. -/
def specFirstHsTokenAux : Option Char → List Char → Option (List Char)
  | prev, [] => longestTok (specTokensAt prev [])
  | prev, cs@(c :: rest) =>
    match longestTok (specTokensAt prev cs) with
    | some tok => some tok
    | none => specFirstHsTokenAux (some c) rest

def specFirstHsToken (text : String) : Option String :=
  (specFirstHsTokenAux none text.data).map String.mk

/-! ### Web layer extraction and hierarchy guard  (src/app.py) -/

/-- `extract_hs_from_result` (src/app.py lines 15–22): same regex search,
then digit normalisation; `None` for a falsy input string. -/
def extract_hs_from_result (result : String) : Option String :=
  if result = "" then none
  else
    match hsSearchAux none result.data with
    | none => none
    | some tok => some (stripNonDigits (String.mk tok))

/-- The `POST /` guard `if hs_digits:` (src/app.py lines 126–128): the
hierarchy is fetched exactly when the extracted digit string is truthy. -/
def hierarchyFetched (result : String) : Bool :=
  match extract_hs_from_result result with
  | some s => s ≠ ""
  | none => false

/-! ### `fetch_caselaw_hierarchy` line scan  (src/app.py lines 44–108)

The HTTP fetch is not modelled; the scan below takes the non-empty stripped
text lines of the page. -/

def startsChuong (s : String) : Bool :=
  "Chương".data.isPrefixOf s.data

/-- `^\d{4,8}$`. -/
def isBareCode (s : String) : Bool :=
  s.data.all Char.isDigit && decide (4 ≤ s.data.length) && decide (s.data.length ≤ 8)

/-- `^(\d{4,8})\b(.*)$`: the maximal leading digit run must have length 4–8
and be followed by a word boundary. -/
def groupLineMatch (s : String) : Option (String × String) :=
  let run := s.data.takeWhile Char.isDigit
  let rest := s.data.drop run.length
  if decide (4 ≤ run.length) && decide (run.length ≤ 8) && afterBoundary rest then
    some (String.mk run, String.mk rest)
  else none

/-- `.strip(" -–:–")` (`–` is the same en dash). -/
def stripSetHier : List Char := [' ', '-', '–', ':']

/-- Assoc-list update with Python dict semantics. -/
def upsert (m : List (String × String)) (k v : String) :
    List (String × String) :=
  if m.any (fun p => p.1 == k) then
    m.map (fun p => if p.1 == k then (k, v) else p)
  else m ++ [(k, v)]

def lookupMap (m : List (String × String)) (k : String) : Option String :=
  (m.find? (fun p => p.1 == k)).map (fun p => p.2)

/-- Read-ahead description from the next line: used by both the chapter and
the group branches — the next line must exist and be neither a chapter
marker nor a bare 4–8 digit code. -/
def nextLineDesc (rest : List String) : String :=
  match rest with
  | nxt :: _ => if !startsChuong nxt && !isBareCode nxt then nxt else ""
  | [] => ""

/-- The single-forward-cursor line scan (the `while i < n` loop, lines
56–100): the cursor always advances by one, the next line being read as
lookahead only. -/
def hierScanAux (keep : String → Bool) :
    String → List (String × String) → List String →
      String × List (String × String)
  | chapter, gmap, [] => (chapter, gmap)
  | chapter, gmap, ln :: rest =>
    if startsChuong ln && chapter = "" then
      let desc := nextLineDesc rest
      hierScanAux keep (if desc = "" then ln else ln ++ " – " ++ desc) gmap rest
    else
      match groupLineMatch ln with
      | some (code, tailRaw) =>
        if keep code then
          let tl := pyStripChars stripSetHier tailRaw
          let desc := if tl = "" then nextLineDesc rest else tl
          hierScanAux keep chapter
            (upsert gmap code (if desc = "" then code else code ++ " – " ++ desc)) rest
        else hierScanAux keep chapter gmap rest
      | none => hierScanAux keep chapter gmap rest

/-- `fetch_caselaw_hierarchy` without the HTTP fetch: scan the page lines
and assemble `(chapter, groups)`, groups ordered 4-digit, 6-digit, 8-digit
prefix. -/
def fetch_caselaw_hierarchy_scan (lines : List String) (hs_digits : String) :
    String × List String :=
  let hs4 := String.mk (hs_digits.data.take 4)
  let hs6 : Option String :=
    if 6 ≤ hs_digits.data.length then some (String.mk (hs_digits.data.take 6)) else none
  let hs8 : Option String :=
    if 8 ≤ hs_digits.data.length then some (String.mk (hs_digits.data.take 8)) else none
  let keep : String → Bool := fun c => c == hs4 || some c == hs6 || some c == hs8
  let res := hierScanAux keep "" [] lines
  let groups := ([some hs4, hs6, hs8].filterMap id).filterMap
    (fun c => if c ≠ "" then lookupMap res.2 c else none)
  (res.1, groups)

/-! ### LLM classification client  (src/model_client.py lines 233–425)

The hosted chat-completion service is an oracle parameter; the embedding
returns the answer text together with the list of issued requests. -/

structure LlmRequest where
  systemPrompt : String
  userPrompt : String
  temperature : ℚ
  maxTokens : Nat
deriving DecidableEq

inductive LlmOutcome where
  | success (content : String)
  | rateLimited
  | failure (err : String)

/-- `row.get("ten_hang") or row.get("description") or ""`. -/
def rawDisplay (row : Row) : String :=
  if row.ten_hang ≠ "" then row.ten_hang
  else if row.description ≠ "" then row.description
  else ""

/-- The deduplicated display name of a row. -/
def displayName (row : Row) : String :=
  pyStrip (rawDisplay row)

/-- `names` collection: truthy, first-occurrence-deduplicated display
names. -/
def collectNames (rows : List Row) : List String :=
  rows.foldl
    (fun acc r =>
      let n := displayName r
      if n ≠ "" && !acc.contains n then acc ++ [n] else acc)
    []

def digitsOf (r : Row) : String :=
  stripNonDigits r.hs_code

def noCandidatesMsg : String := "Không tìm được mã HS ứng viên nào."

def noSuitableMsg : String := "Không tìm được mã HS ứng viên phù hợp."

def quotaMsg : String := "🚫 Hết giới hạn Groq trong ngày, vui lòng thử lại sau."

def modelErrMsgPre : String := "⚠️ Lỗi khi gọi model: "

def namesHeader : String := "Các tên hàng khớp trong dữ liệu:"

/-- The single-filtered-candidate deterministic answer (lines 259–273):
names come from the chosen row only, capped at 8. -/
def singleResult (chosen : Row) : String :=
  let names := collectNames [chosen]
  joinNL (["HS code: " ++ format_hs_code chosen.hs_code] ++
    (if names.isEmpty then []
     else namesHeader :: (names.take 8).map (fun n => "- " ++ n)))

/-- The final answer composition (lines 291–305 and 410–425): matching rows
are collected from the full candidate list, names capped at 12. -/
def composeAnswer (candidates : List Row) (chosen : Row) : String :=
  let names := collectNames
    (candidates.filter (fun r => digitsOf r == digitsOf chosen))
  joinNL (["HS code: " ++ format_hs_code chosen.hs_code] ++
    (if names.isEmpty then []
     else namesHeader :: (names.take 12).map (fun n => "- " ++ n)))

def compactTags : List String :=
  ["mdf", "hdf", "plywood", "veneer", "gỗ", "ván"]

/-- `build_compact_context_for_llm` (lines 308–325). -/
def build_compact_context_for_llm (candidates_list : List Row)
    (max_chars_desc top_k : Nat) : String × List Row :=
  let top := candidates_list.take top_k
  let lines := top.enum.map (fun ir =>
    let row := ir.2
    let hs_raw := stripNonDigits row.hs_code
    let desc := pyStrip (replaceNLBySpace (pyTake max_chars_desc (rawDisplay row)))
    let text := lowerStr (rawDisplay row)
    let tags := compactTags.filter (fun m => strContainsSub text m)
    let nums := (finditer numMMMatcher text).map (fun p => String.mk p.1)
    toString (ir.1 + 1) ++ "|HS=" ++ hs_raw ++ "|d=" ++ desc ++
      "|n=" ++ nums.headD "" ++ "|t=" ++ joinSep "," tags)
  (joinNL lines, top)

/-- Python `str(float)` for the values reachable here (used only inside the
prompt text): sign, integer part, then the decimal fraction digits (`"x.0"`
for integral values; the embedding prints exactly terminating fractions). -/
def fracDigits : Nat → ℚ → List Char
  | 0, _ => []
  | fuel + 1, f =>
    if f = 0 then []
    else
      let f10 := f * 10
      let d := f10.floor.toNat
      Char.ofNat (48 + d) :: fracDigits fuel (f10 - (d : ℚ))

def pyFloatStr (q : ℚ) : String :=
  let neg := decide (q < 0)
  let a : ℚ := if neg then -q else q
  let ipart : Nat := a.floor.toNat
  let ds := fracDigits 17 (a - (ipart : ℚ))
  (if neg then "-" else "") ++ toString ipart ++ "." ++
    (if ds.isEmpty then "0" else String.mk ds)

/-- `build_specs_summary_local` (lines 327–342). -/
def build_specs_summary_local (specs : Specs) : String :=
  let parts :=
    (if specs.material.isEmpty then []
     else ["material:" ++ joinSep "," (specs.material.take 3)]) ++
    (match specs.thickness with
     | [] => []
     | (comp, val) :: _ =>
       match comp with
       | some c =>
         if c ≠ "" then ["thickness:" ++ c ++ pyFloatStr val]
         else ["thickness:==" ++ pyFloatStr val]
       | none => ["thickness:==" ++ pyFloatStr val]) ++
    (if specs.keywords.isEmpty then []
     else ["kw:" ++ joinSep "," (specs.keywords.take 3)])
  joinSep ";" parts

def systemPromptStr : String :=
  "Bạn là chuyên gia phân loại mã HS Việt Nam. Chỉ chọn 1 mã HS từ danh sách đã cung cấp. Trả 1 dòng: HS code: <mã>"

def mkUserPrompt (query specsSummary contextStr : String) : String :=
  "Mô tả hàng: \"" ++ query ++ "\"\n" ++
  "Specs: " ++ specsSummary ++ "\n\n" ++
  "Danh sách ứng viên (compact):\n" ++
  contextStr ++ "\n\n" ++
  "LƯU Ý: CHỈ CHỌN 1 mã HS từ danh sách trên. Trả DUY NHẤT 1 dòng: HS code: <mã>"

/-- The scored, stably descending-sorted shortlist built from `filtered`
(lines 277–282). -/
def scoredListOf (specs : Specs) (filtered : List Row) : List (Nat × Row) :=
  sortScoredDesc (filtered.map (fun r => ((candidate_matches_specs r specs).2, r)))

/-- The one chat-completion request the compact path issues (lines
344–367): compact context of the top 6 scored rows, 40-character
descriptions, temperature 0.0, 40 max output tokens. -/
def compactRequest (query : String) (candidates : List Row) : LlmRequest :=
  let specs := parse_specs_from_query query
  let filtered := filter_candidates_by_specs candidates specs
  let scored := scoredListOf specs filtered
  ⟨systemPromptStr,
   mkUserPrompt query (build_specs_summary_local specs)
     (build_compact_context_for_llm (scored.map Prod.snd) 40 6).1,
   0, 40⟩

/-- Mapping the model's reply back to a candidate (lines 379–408). -/
def chooseFromOutput (candidates filtered top_candidates : List Row)
    (output : String) : Row :=
  match _extract_hs_from_output output with
  | none => filtered.headD (candidates.headD defaultRow)
  | some t =>
    let d := stripNonDigits t
    match
      ((top_candidates.find? (fun r => digitsOf r == d)).orElse
        (fun _ => (filtered.find? (fun r => digitsOf r == d)).orElse
          (fun _ => candidates.find? (fun r => digitsOf r == d)))) with
    | some c => c
    | none => filtered.headD (candidates.headD defaultRow)

/-- `ask_model_for_hs` (lines 245–425), with the hosted model as an oracle;
the second component is the list of issued requests. -/
def ask_model_for_hs (llm : LlmRequest → LlmOutcome) (query : String)
    (candidates : List Row) : String × List LlmRequest :=
  if candidates.isEmpty then (noCandidatesMsg, [])
  else
    let specs := parse_specs_from_query query
    let filtered := filter_candidates_by_specs candidates specs
    if filtered.length = 1 then (singleResult (filtered.headD defaultRow), [])
    else
      match scoredListOf specs filtered with
      | [] => (noSuitableMsg, [])
      | (top_score, top_row) :: rest =>
        let second_score : Int := match rest with | [] => -9999 | s :: _ => (s.1 : Int)
        if second_score + 15 ≤ (top_score : Int) then
          (composeAnswer candidates top_row, [])
        else
          let req := compactRequest query candidates
          let top_candidates :=
            (build_compact_context_for_llm
              ((scoredListOf specs filtered).map Prod.snd) 40 6).2
          match llm req with
          | .rateLimited => (quotaMsg, [req])
          | .failure e =>
            ((if !filtered.isEmpty then
                "HS code: " ++ format_hs_code (filtered.headD defaultRow).hs_code
              else modelErrMsgPre ++ e), [req])
          | .success out =>
            (composeAnswer candidates
              (chooseFromOutput candidates filtered top_candidates out), [req])

/-! ### Catalog loader  (src/hs_loader.py)

A data directory is modelled as a listing of file names with, for each, the
table its JSON parses to (`none` when `pd.read_json` fails in both the
array and the lines orientation). -/

structure JTable where
  cols : List String
  rows : List (List String)

deriving instance DecidableEq for Except

/-- Lowercased column keys in first-occurrence order — the key order of the
Python dict `{c.lower(): c for c in df.columns}`. -/
def lowerKeysInOrder (cols : List String) : List String :=
  cols.foldl
    (fun acc c => let k := lowerStr c; if acc.contains k then acc else acc ++ [k])
    []

/-- The dict's value for a lowered key: the last original column with that
lowercase form. -/
def lastOrigFor (cols : List String) (k : String) : String :=
  (cols.foldl (fun acc c => if lowerStr c == k then some c else acc)
    (none : Option String)).getD ""

/-- The value of a row at a named column. -/
def colVal (cols : List String) (row : List String) (col : String) : String :=
  match cols.indexOf? col with
  | some i => row.getD i ""
  | none => ""

/-- `_load_json_goods` (src/hs_loader.py lines 8–95) applied to a parsed
table: locate the required code column and the optional name/text columns,
build descriptions, and drop rows with empty trimmed code or description. -/
def _load_json_goods (fname : String) (t : JTable) : Except String (List Row) :=
  let keys := lowerKeysInOrder t.cols
  match keys.find? (fun k => strContainsSub k "hs_code" || strContainsSub k "hs code") with
  | none => .error ("File " ++ fname ++ " không có cột hs_code.")
  | some hsKey =>
    let hsCol := lastOrigFor t.cols hsKey
    let nameCol := (keys.find? (fun k =>
      strContainsSub k "ten_hang" || strContainsSub k "tên hàng" ||
        strContainsSub k "ten hang")).map (lastOrigFor t.cols)
    let textCol :=
      if keys.contains "text" then some (lastOrigFor t.cols "text") else none
    let rows := t.rows.map (fun r =>
      let hs := pyStrip (colVal t.cols r hsCol)
      let ten := match nameCol with
        | some nc => pyStrip (colVal t.cols r nc)
        | none => ""
      let desc0 := match textCol with
        | some tc => pyStrip (colVal t.cols r tc)
        | none =>
          t.cols.foldl
            (fun acc c =>
              let cl := lowerStr c
              if strContainsSub cl "hs" then acc
              else if strContainsSub cl "ghi" || strContainsSub cl "note" ||
                  strContainsSub cl "item" || strContainsSub cl "remark" then
                acc ++ " | " ++ c ++ ": " ++ pyStrip (colVal t.cols r c)
              else acc)
            ten
      (⟨hs, pyStrip desc0, ten, fname⟩ : Row))
    .ok (rows.filter (fun r => pyStrip r.hs_code ≠ "" && pyStrip r.description ≠ ""))

def strEndsWith (s suffix : String) : Bool :=
  suffix.data.reverse.isPrefixOf s.data.reverse

/-- The per-file step of the loader loop (lines 105–117): `none` when the
file is skipped (wrong extension, unreadable JSON, or a failing
`_load_json_goods`), otherwise the retained rows (possibly zero). -/
def fileRetained (fname : String) (content : Option JTable) : Option (List Row) :=
  if strEndsWith (lowerStr fname) ".json" then
    match content with
    | some t =>
      match _load_json_goods fname t with
      | .ok rs => some rs
      | .error _ => none
    | none => none
  else none

/-- `load_hs_excels` (src/hs_loader.py lines 98–127): raises exactly when no
file loads successfully; otherwise the concatenation of every loaded file's
retained rows, re-trimmed. -/
def load_hs_excels (dirListing : List (String × Option JTable)) :
    Except String (List Row) :=
  let parts := dirListing.filterMap (fun fc => fileRetained fc.1 fc.2)
  if parts.isEmpty then
    .error "Không tìm thấy file JSON HS code nào trong folder data/"
  else
    .ok (parts.flatten.map (fun r =>
      Row.mk (pyStrip r.hs_code) (pyStrip r.description) (pyStrip r.ten_hang)
        r.source_file))

/-! ### Local-model interactive finder  (src/convert_excel_json/hs_ollama_finder.py)

Only the reply-validation portion of `ask_hs_code` is in scope (lines
161–199); the parsed JSON reply is modelled as an object with optional
fields over a JSON value type.  Python's `isinstance(idx, int)` also
accepts booleans (`bool` is a subclass of `int`, `True == 1`). -/

inductive JVal where
  | jint (n : Int)
  | jbool (b : Bool)
  | jstr (s : String)
  | jnull
  | jother
deriving DecidableEq

structure FinderRec where
  hs_code : String
  ten_hang : String
  ghi_chu_1 : String
  ghi_chu_2 : String
deriving DecidableEq

structure ParsedReply where
  index_in_list : Option JVal
  explanation_vi : Option JVal
  explanation_en : Option JVal
deriving DecidableEq

structure FinderResult where
  hs_code : String
  ten_hang_trong_db : String
  ghi_chu_1 : String
  ghi_chu_2 : String
  index_in_list : JVal
  explanation_vi : JVal
  explanation_en : JVal
deriving DecidableEq

/-- Python `isinstance(x, int)` on a JSON value: booleans pass. -/
def isInstInt : JVal → Bool
  | .jint _ => true
  | .jbool _ => true
  | _ => false

def jvalToInt : JVal → Int
  | .jint n => n
  | .jbool b => if b then 1 else 0
  | _ => 0

def defaultFinderRec : FinderRec := ⟨"", "", "", ""⟩

/-- The index-validation and result-construction portion of `ask_hs_code`
(lines 177–199): `parsed.get("index_in_list")` yields Python `None` when the
field is absent, the index must be an `isinstance`-integer within
`[1, len(candidates)]`, and every record field of the result is read from
the shortlisted record, never from the model text. -/
def ask_hs_code_select (candidates : List FinderRec) (parsed : ParsedReply) :
    Option FinderResult :=
  let idx := parsed.index_in_list.getD .jnull
  if !isInstInt idx then none
  else
    let i := jvalToInt idx
    if 1 ≤ i ∧ i ≤ (candidates.length : Int) then
      let chosen := candidates.getD (i - 1).toNat defaultFinderRec
      some ⟨chosen.hs_code, chosen.ten_hang, chosen.ghi_chu_1, chosen.ghi_chu_2,
            idx, parsed.explanation_vi.getD (.jstr ""),
            parsed.explanation_en.getD (.jstr "")⟩
    else none

/-- C9: for every string input, `format_hs_code` strips all non-digit
characters; with exactly 8 digits left it returns them grouped `dddd.dd.dd`,
with exactly 6 it returns `dddd.dd`, and otherwise the original raw string
unchanged; in particular `format_hs_code "32082090" = "3208.20.90"`,
`format_hs_code "320820" = "3208.20"`, `format_hs_code "3208" = "3208"`. -/
theorem c9_format_hs_code :
    (∀ raw : String,
      format_hs_code raw =
        (let d := (stripNonDigits raw).data
         if d.length = 8 then
           String.mk (d.take 4) ++ "." ++ String.mk ((d.take 6).drop 4) ++ "." ++
             String.mk (d.drop 6)
         else if d.length = 6 then
           String.mk (d.take 4) ++ "." ++ String.mk (d.drop 4)
         else raw)) ∧
    format_hs_code "32082090" = "3208.20.90" ∧
    format_hs_code "320820" = "3208.20" ∧
    format_hs_code "3208" = "3208" := by
  refine ⟨fun raw => ?_, by decide, by decide, by decide⟩
  show format_hs_code raw = _
  rw [format_hs_code]
  have h : ∀ l : List Char, (l.take 6).drop 4 = (l.drop 4).take 2 := by
    intro l
    rw [List.drop_take]
  simp only [h]

/-- C7: the hierarchy-page line scan on
`["Chương 32 ...", "Các chất nhuộm", "3208 Sơn và véc-ni", "32082090 Loại khác"]`
with queried digit string `"32082090"` yields the chapter
`"Chương 32 ... – Các chất nhuộm"` and exactly the groups
`["3208 – Sơn và véc-ni", "32082090 – Loại khác"]`, in that order. -/
theorem c7_hierarchy_scan :
    fetch_caselaw_hierarchy_scan
      ["Chương 32 ...", "Các chất nhuộm", "3208 Sơn và véc-ni", "32082090 Loại khác"]
      "32082090" =
    ("Chương 32 ... – Các chất nhuộm",
     ["3208 – Sơn và véc-ni", "32082090 – Loại khác"]) := by
  decide

/-- C4 counterexample: a directory with one well-formed file whose only row
is dropped (blank trimmed code) yields zero retained rows overall, yet
`load_hs_excels` returns an empty table instead of raising: the raise only
happens when no file at all loads successfully. -/
theorem c4_counterexample :
    load_hs_excels [("a.json", some ⟨["hs_code", "text"], [[" ", "x"]]⟩)] =
      .ok [] := by
  decide

/-- C4 amended: `load_hs_excels` fails by raising exactly when no directory
entry loads successfully (wrong extension, unreadable JSON, or a missing
code column); a successfully parsed file whose rows are all dropped still
counts as loaded, so the load can return a zero-row table. -/
theorem c4_loader_amended :
    ∀ dirListing : List (String × Option JTable),
      (∃ e, load_hs_excels dirListing = .error e) ↔
        ∀ fc ∈ dirListing, fileRetained fc.1 fc.2 = none := by
  intro dir
  simp only [load_hs_excels]
  split
  next h =>
    rw [List.isEmpty_iff] at h
    constructor
    · intro _
      exact List.filterMap_eq_nil_iff.mp h
    · intro _
      exact ⟨_, rfl⟩
  next h =>
    constructor
    · rintro ⟨e, he⟩
      exact absurd he (by simp)
    · intro hall
      exact absurd (by rw [List.isEmpty_iff]
                       exact List.filterMap_eq_nil_iff.mpr hall) h

/-- C8 counterexample: a parsed reply whose `index_in_list` is the JSON
boolean `true` — not an integer — is accepted (Python's
`isinstance(True, int)` holds and `True == 1`), selecting the first
shortlisted record; the claim's "non-None iff the field is an integer in
range" is therefore false as stated. -/
theorem c8_counterexample :
    ask_hs_code_select [⟨"3208", "son", "g1", ""⟩]
        ⟨some (.jbool true), none, none⟩ =
      some ⟨"3208", "son", "g1", "", .jbool true, .jstr "", .jstr ""⟩ ∧
    ∀ n : Int, (JVal.jbool true) ≠ .jint n := by
  refine ⟨by decide, fun n h => by cases h⟩

/-- C8 amended: a successfully parsed reply yields a non-None result iff
`index_in_list` holds a value that Python's `isinstance(_, int)` accepts —
an integer or a boolean (booleans are integers, `True = 1`) — whose integer
value lies within `[1, number of shortlisted candidates]`; in the success
case the result's code, item name and notes are exactly those of the
shortlisted record at that position, never taken from the model text. -/
theorem c8_index_validation_amended :
    (∀ (candidates : List FinderRec) (parsed : ParsedReply),
      (ask_hs_code_select candidates parsed).isSome = true ↔
        ∃ v, parsed.index_in_list = some v ∧ isInstInt v = true ∧
          1 ≤ jvalToInt v ∧ jvalToInt v ≤ (candidates.length : Int)) ∧
    (∀ (candidates : List FinderRec) (parsed : ParsedReply) (r : FinderResult),
      ask_hs_code_select candidates parsed = some r →
        ∃ v, parsed.index_in_list = some v ∧
          r.hs_code =
            (candidates.getD (jvalToInt v - 1).toNat defaultFinderRec).hs_code ∧
          r.ten_hang_trong_db =
            (candidates.getD (jvalToInt v - 1).toNat defaultFinderRec).ten_hang ∧
          r.ghi_chu_1 =
            (candidates.getD (jvalToInt v - 1).toNat defaultFinderRec).ghi_chu_1 ∧
          r.ghi_chu_2 =
            (candidates.getD (jvalToInt v - 1).toNat defaultFinderRec).ghi_chu_2) := by
  constructor
  · intro cands parsed
    unfold ask_hs_code_select
    cases hidx : parsed.index_in_list with
    | none => simp [isInstInt]
    | some v =>
      simp only [Option.getD_some]
      by_cases hinst : isInstInt v = true
      · by_cases hrange : 1 ≤ jvalToInt v ∧ jvalToInt v ≤ (cands.length : Int)
        · simp [hinst, hrange]
        · simp only [hinst, Bool.not_true, Bool.false_eq_true, if_false, hrange, if_neg,
            Option.isSome_none]
          constructor
          · intro h
            exact absurd h (by simp)
          · rintro ⟨v', hv', hinst', hr1, hr2⟩
            rw [Option.some_inj] at hv'
            subst hv'
            exact absurd ⟨hr1, hr2⟩ hrange
      · simp only [Bool.not_eq_true] at hinst
        simp only [hinst, Bool.not_false, if_true, Option.isSome_none]
        constructor
        · intro h
          cases h
        · rintro ⟨v', hv', hinst', _, _⟩
          rw [Option.some_inj] at hv'
          subst hv'
          rw [hinst] at hinst'
          cases hinst'
  · intro cands parsed r h
    unfold ask_hs_code_select at h
    cases hidx : parsed.index_in_list with
    | none => rw [hidx] at h; simp [isInstInt] at h
    | some v =>
      rw [hidx] at h
      simp only [Option.getD_some] at h
      by_cases hinst : isInstInt v = true
      · rw [hinst] at h
        simp only [Bool.not_true, Bool.false_eq_true, if_false] at h
        by_cases hrange : 1 ≤ jvalToInt v ∧ jvalToInt v ≤ (cands.length : Int)
        · rw [if_pos hrange] at h
          rw [Option.some_inj] at h
          exact ⟨v, rfl, by rw [← h], by rw [← h], by rw [← h], by rw [← h]⟩
        · rw [if_neg hrange] at h
          cases h
      · simp only [Bool.not_eq_true] at hinst
        rw [hinst] at h
        simp at h

/-- C8 witness for the amended theorem: a reply with integer index 1 against
a one-record shortlist yields exactly that record's fields. -/
theorem c8_witness :
    ask_hs_code_select [⟨"3208", "son", "g1", ""⟩] ⟨some (.jint 1), none, none⟩ =
      some ⟨"3208", "son", "g1", "", .jint 1, .jstr "", .jstr ""⟩ ∧
    ∃ v, (⟨some (.jint 1), none, none⟩ : ParsedReply).index_in_list = some v ∧
      (⟨"3208", "son", "g1", "", .jint 1, .jstr "", .jstr ""⟩ : FinderResult).hs_code =
        (([⟨"3208", "son", "g1", ""⟩] : List FinderRec).getD
          (jvalToInt v - 1).toNat defaultFinderRec).hs_code ∧
      (⟨"3208", "son", "g1", "", .jint 1, .jstr "", .jstr ""⟩ : FinderResult).ten_hang_trong_db =
        (([⟨"3208", "son", "g1", ""⟩] : List FinderRec).getD
          (jvalToInt v - 1).toNat defaultFinderRec).ten_hang ∧
      (⟨"3208", "son", "g1", "", .jint 1, .jstr "", .jstr ""⟩ : FinderResult).ghi_chu_1 =
        (([⟨"3208", "son", "g1", ""⟩] : List FinderRec).getD
          (jvalToInt v - 1).toNat defaultFinderRec).ghi_chu_1 ∧
      (⟨"3208", "son", "g1", "", .jint 1, .jstr "", .jstr ""⟩ : FinderResult).ghi_chu_2 =
        (([⟨"3208", "son", "g1", ""⟩] : List FinderRec).getD
          (jvalToInt v - 1).toNat defaultFinderRec).ghi_chu_2 :=
  ⟨by decide,
   c8_index_validation_amended.2 [⟨"3208", "son", "g1", ""⟩]
     ⟨some (.jint 1), none, none⟩
     ⟨"3208", "son", "g1", "", .jint 1, .jstr "", .jstr ""⟩ (by decide)⟩

/-- C6 counterexample: the query `"8-9 mm"` contains the numeric range
`8-9 mm`, and the record text `"tam 5 mm"` contains the mm-number `5 ≤ 9`,
yet scoring gives `(matched, score) = (false, 1)` — the range-derived
upper-bound constraint (labelled `"<= "` with a stray trailing space) never
adds `+20` nor marks the record matched. -/
theorem c6_counterexample :
    parse_thickness_from_text "8-9 mm" =
      [(some ">=", 8), (some "<= ", 9), (some "==", 9)] ∧
    extract_numbers_from_text (rowSearchText ⟨"4411", "tam 5 mm", "", ""⟩) = [5] ∧
    ((5 : ℚ) ≤ 9) ∧
    candidate_matches_specs ⟨"4411", "tam 5 mm", "", ""⟩
      (parse_specs_from_query "8-9 mm") = (false, 1) := by
  refine ⟨by decide, by decide, by decide, by decide⟩

/-- C6 amended: for every query in which the range pattern finds `A-B mm`,
`parse_thickness_from_text` emits an at-least-`A` constraint (comparator
`">="`) and an upper-bound constraint carrying the label `"<= "` with a
stray trailing space at value `B`; because that label matches none of the
scoring branches, the constraint is never satisfied — it contributes
`(false, 0)` for every candidate number list and text. -/
theorem c6_range_constraints_amended :
    (∀ (text : String) (a b : ℚ),
      (a, b) ∈ finditer patRangeMatcher (lowerStr text) →
        (some ">=", a) ∈ parse_thickness_from_text text ∧
        (some "<= ", b) ∈ parse_thickness_from_text text) ∧
    (∀ (val : ℚ) (nums : List ℚ) (desc : String),
      constraintContribution (some "<= ") val nums desc = (false, 0)) := by
  constructor
  · intro text a b hmem
    have hge : (some ">=", a) ∈
        (finditer patRangeMatcher (lowerStr text)).flatMap
          (fun ab => [(some ">=", ab.1), (some "<= ", ab.2)]) :=
      List.mem_flatMap.mpr ⟨(a, b), hmem, by simp⟩
    have hle : (some "<= ", b) ∈
        (finditer patRangeMatcher (lowerStr text)).flatMap
          (fun ab => [(some ">=", ab.1), (some "<= ", ab.2)]) :=
      List.mem_flatMap.mpr ⟨(a, b), hmem, by simp⟩
    simp only [parse_thickness_from_text]
    exact ⟨List.mem_append_left _ (List.mem_append_left _
            (List.mem_append_right _ hge)),
          List.mem_append_left _ (List.mem_append_left _
            (List.mem_append_right _ hle))⟩
  · intro val nums desc
    have hsat : ∀ n : ℚ, satisfiesThick (some "<= ") val n = false := by
      intro n
      unfold satisfiesThick
      simp only [show ((some "<= " : Option String) == some "<") = false from by decide,
        show ((some "<= " : Option String) == some "<=") = false from by decide,
        show ((some "<= " : Option String) == (none : Option String)) = false from by decide,
        show ((some "<= " : Option String) == some ">") = false from by decide,
        show ((some "<= " : Option String) == some ">=") = false from by decide,
        show ((some "<= " : Option String) == some "==") = false from by decide,
        Bool.false_or, Bool.false_and]
    unfold constraintContribution
    by_cases hemp : nums.isEmpty
    · simp [hemp, show ((some "<= " : Option String) == some "<=") = false from by decide,
        show ((some "<= " : Option String) == some ">=") = false from by decide]
    · have hany : nums.any (satisfiesThick (some "<= ") val) = false := by
        simp [hsat]
      simp [hemp, hany]

/-- C6 witness for the amended theorem: the range matcher finds `(8, 9)` in
`"8-9 mm"`, both constraints are emitted, and the `"<= "`-labelled one
contributes nothing against the number `5 ≤ 9`. -/
theorem c6_witness :
    ((some ">=", (8 : ℚ)) ∈ parse_thickness_from_text "8-9 mm" ∧
     (some "<= ", (9 : ℚ)) ∈ parse_thickness_from_text "8-9 mm") ∧
    constraintContribution (some "<= ") 9 [5] "tam 5 mm" = (false, 0) :=
  ⟨c6_range_constraints_amended.1 "8-9 mm" 8 9 (by decide),
   c6_range_constraints_amended.2 9 [5] "tam 5 mm"⟩

/-- C3: whenever spec filtering leaves exactly one candidate, `classify`
returns that candidate deterministically — its formatted code plus its own
display name — and issues no remote request at all. -/
theorem c3_single_candidate_deterministic :
    ∀ (llm : LlmRequest → LlmOutcome) (query : String) (candidates : List Row)
      (c : Row),
      candidates ≠ [] →
      filter_candidates_by_specs candidates (parse_specs_from_query query) = [c] →
      ask_model_for_hs llm query candidates = (singleResult c, []) ∧
      singleResult c =
        joinNL (["HS code: " ++ format_hs_code c.hs_code] ++
          (if displayName c ≠ "" then [namesHeader, "- " ++ displayName c]
           else [])) := by
  intro llm query candidates c hne hf
  constructor
  · simp only [ask_model_for_hs]
    rw [if_neg (by simp [List.isEmpty_iff, hne])]
    simp [hf]
  · by_cases hdn : displayName c = ""
    · simp [singleResult, collectNames, hdn]
    · simp [singleResult, collectNames, hdn, joinNL]

/-- C3 witness: a single candidate whose shortlist survives filtering
unchanged is returned deterministically, with an empty request log. -/
theorem c3_witness :
    ask_model_for_hs (fun _ => .rateLimited) "xyz" [⟨"4411", "aaa", "", ""⟩] =
      (singleResult ⟨"4411", "aaa", "", ""⟩, []) ∧
    singleResult ⟨"4411", "aaa", "", ""⟩ =
      joinNL (["HS code: " ++ format_hs_code (Row.mk "4411" "aaa" "" "").hs_code] ++
        (if displayName ⟨"4411", "aaa", "", ""⟩ ≠ "" then
          [namesHeader, "- " ++ displayName ⟨"4411", "aaa", "", ""⟩]
         else [])) :=
  c3_single_candidate_deterministic (fun _ => .rateLimited) "xyz"
    [⟨"4411", "aaa", "", ""⟩] ⟨"4411", "aaa", "", ""⟩ (by decide) (by decide)

lemma eqWithinMillionth_iff (n val : ℚ) :
    eqWithinMillionth n val = true ↔ |n - val| < 1 / 1000000 := by
  unfold eqWithinMillionth
  rw [decide_eq_true_eq]
  have hdn : (0 : ℚ) < (n.den : ℚ) := by exact_mod_cast n.den_pos
  have hdv : (0 : ℚ) < (val.den : ℚ) := by exact_mod_cast val.den_pos
  have hsub : n - val =
      ((n.num * (val.den : ℤ) - val.num * (n.den : ℤ) : ℤ) : ℚ) /
        ((n.den : ℚ) * (val.den : ℚ)) := by
    conv_lhs => rw [← Rat.num_div_den n, ← Rat.num_div_den val]
    rw [div_sub_div _ _ (ne_of_gt hdn) (ne_of_gt hdv)]
    push_cast
    ring
  rw [hsub, abs_div, abs_of_pos (mul_pos hdn hdv),
    div_lt_div_iff₀ (mul_pos hdn hdv) (by norm_num : (0 : ℚ) < 1000000)]
  rw [one_mul, ← Int.cast_abs, Int.abs_eq_natAbs, mul_comm]
  constructor
  · intro h
    exact_mod_cast h
  · intro h
    exact_mod_cast h

/-- C5: for a record whose searchable text contains mm-numbers, each
thickness constraint with comparator at-most, unspecified, at-least or
exactly adds `+20` and marks the record matched iff some mm-number is
`≤ val`, `≤ val`, `≥ val`, or within `1e-6` of `val` respectively; the
single-constraint score decomposition and the claim's four concrete
`"3 mm"` / `"10 mm"` cases are included. -/
theorem c5_thickness_matching :
    (∀ (row : Row) (val : ℚ),
      extract_numbers_from_text (rowSearchText row) ≠ [] →
        (constraintContribution (some "<=") val
            (extract_numbers_from_text (rowSearchText row)) (rowSearchText row) =
          if ∃ m ∈ extract_numbers_from_text (rowSearchText row), m ≤ val
          then (true, 20) else (false, 0)) ∧
        (constraintContribution none val
            (extract_numbers_from_text (rowSearchText row)) (rowSearchText row) =
          if ∃ m ∈ extract_numbers_from_text (rowSearchText row), m ≤ val
          then (true, 20) else (false, 0)) ∧
        (constraintContribution (some ">=") val
            (extract_numbers_from_text (rowSearchText row)) (rowSearchText row) =
          if ∃ m ∈ extract_numbers_from_text (rowSearchText row), val ≤ m
          then (true, 20) else (false, 0)) ∧
        (constraintContribution (some "==") val
            (extract_numbers_from_text (rowSearchText row)) (rowSearchText row) =
          if ∃ m ∈ extract_numbers_from_text (rowSearchText row), |m - val| < 1 / 1000000
          then (true, 20) else (false, 0))) ∧
    (∀ (row : Row) (comp : Option String) (val : ℚ),
      candidate_matches_specs row ⟨[], [], [(comp, val)]⟩ =
        ((constraintContribution comp val
            (extract_numbers_from_text (rowSearchText row)) (rowSearchText row)).1,
         (if (extract_numbers_from_text (rowSearchText row)).isEmpty then 0 else 1) +
           (constraintContribution comp val
             (extract_numbers_from_text (rowSearchText row)) (rowSearchText row)).2)) ∧
    candidate_matches_specs ⟨"4411", "tam 3 mm", "", ""⟩ ⟨[], [], [(some "<=", 4)]⟩ =
      (true, 21) ∧
    candidate_matches_specs ⟨"4411", "tam 3 mm", "", ""⟩ ⟨[], [], [(some ">=", 5)]⟩ =
      (false, 1) ∧
    candidate_matches_specs ⟨"4411", "tam 10 mm", "", ""⟩ ⟨[], [], [(some ">=", 5)]⟩ =
      (true, 21) ∧
    candidate_matches_specs ⟨"4411", "tam 10 mm", "", ""⟩ ⟨[], [], [(some "<=", 4)]⟩ =
      (false, 1) := by
  refine ⟨?_, ?_, by decide, by decide, by decide, by decide⟩
  · intro row val hne
    have hemp : (extract_numbers_from_text (rowSearchText row)).isEmpty = false := by
      cases h : (extract_numbers_from_text (rowSearchText row)).isEmpty
      · rfl
      · exact absurd (List.isEmpty_iff.mp h) hne
    have hgen : ∀ (comp : Option String) (P : ℚ → Prop) (_ : DecidablePred P),
        (∀ m : ℚ, satisfiesThick comp val m = decide (P m)) →
        constraintContribution comp val
            (extract_numbers_from_text (rowSearchText row)) (rowSearchText row) =
          if ∃ m ∈ extract_numbers_from_text (rowSearchText row), P m
          then (true, 20) else (false, 0) := by
      intro comp P inst hs
      unfold constraintContribution
      rw [hemp]
      simp only [Bool.false_eq_true, if_false]
      have hiff : ((extract_numbers_from_text (rowSearchText row)).any
          (satisfiesThick comp val) = true) ↔
          ∃ m ∈ extract_numbers_from_text (rowSearchText row), P m := by
        rw [List.any_eq_true]
        constructor
        · rintro ⟨x, hx, hsat⟩
          rw [hs x, decide_eq_true_eq] at hsat
          exact ⟨x, hx, hsat⟩
        · rintro ⟨x, hx, hP⟩
          exact ⟨x, hx, by rw [hs x, decide_eq_true_eq]; exact hP⟩
      split
      next hany => rw [if_pos (hiff.mp hany)]
      next hany => rw [if_neg (fun hP => hany (hiff.mpr hP))]
    refine ⟨hgen _ _ inferInstance (by intro m; simp [satisfiesThick]),
            hgen _ _ inferInstance (by intro m; simp [satisfiesThick]),
            hgen _ _ inferInstance (by intro m; simp [satisfiesThick]),
            hgen _ _ inferInstance ?_⟩
    intro m
    rw [show satisfiesThick (some "==") val m = eqWithinMillionth m val from by
      simp [satisfiesThick]]
    cases h : eqWithinMillionth m val
    · have := (eqWithinMillionth_iff m val)
      rw [h] at this
      symm
      rw [decide_eq_false_iff_not]
      intro hc
      exact absurd (this.mpr hc) (by simp)
    · symm
      rw [decide_eq_true_eq]
      exact (eqWithinMillionth_iff m val).mp h
  · intro row comp val
    simp [candidate_matches_specs]

/-- C5 witness for the universal part: the record text `"tam 3 mm"` has the
mm-number list `[3]`, and the at-most-4 constraint evaluates to the
spec-side conditional. -/
theorem c5_witness :
    extract_numbers_from_text (rowSearchText ⟨"4411", "tam 3 mm", "", ""⟩) ≠ [] ∧
    constraintContribution (some "<=") 4
        (extract_numbers_from_text (rowSearchText ⟨"4411", "tam 3 mm", "", ""⟩))
        (rowSearchText ⟨"4411", "tam 3 mm", "", ""⟩) =
      (if ∃ m ∈ extract_numbers_from_text (rowSearchText ⟨"4411", "tam 3 mm", "", ""⟩),
          m ≤ (4 : ℚ)
       then (true, 20) else (false, 0)) :=
  ⟨by decide, (c5_thickness_matching.1 ⟨"4411", "tam 3 mm", "", ""⟩ 4 (by decide)).1⟩

lemma mem_insertScoredDesc {x y : Nat × Row} {l : List (Nat × Row)} :
    x ∈ insertScoredDesc y l ↔ x = y ∨ x ∈ l := by
  induction l with
  | nil => simp [insertScoredDesc]
  | cons z zs ih =>
    unfold insertScoredDesc
    split
    · simp
    · simp [ih]
      tauto

lemma mem_sortScoredDesc {x : Nat × Row} {l : List (Nat × Row)} :
    x ∈ sortScoredDesc l ↔ x ∈ l := by
  induction l with
  | nil => simp [sortScoredDesc]
  | cons y ys ih => simp [sortScoredDesc, mem_insertScoredDesc, ih]

lemma sortScoredDesc_eq_nil_iff {l : List (Nat × Row)} :
    sortScoredDesc l = [] ↔ l = [] := by
  induction l with
  | nil => simp [sortScoredDesc]
  | cons y ys ih =>
    simp only [sortScoredDesc]
    constructor
    · intro h
      have : y ∈ insertScoredDesc y (sortScoredDesc ys) :=
        mem_insertScoredDesc.mpr (Or.inl rfl)
      rw [h] at this
      cases this
    · intro h
      cases h

lemma pairwise_insertScoredDesc {y : Nat × Row} {l : List (Nat × Row)}
    (h : l.Pairwise (fun a b => b.1 ≤ a.1)) :
    (insertScoredDesc y l).Pairwise (fun a b => b.1 ≤ a.1) := by
  induction l with
  | nil => simp [insertScoredDesc]
  | cons z zs ih =>
    rcases List.pairwise_cons.mp h with ⟨hz, hzs⟩
    unfold insertScoredDesc
    split
    next hge =>
      refine List.pairwise_cons.mpr ⟨?_, h⟩
      intro b hb
      rcases List.mem_cons.mp hb with rfl | hb'
      · exact hge
      · exact le_trans (hz b hb') hge
    next hlt =>
      refine List.pairwise_cons.mpr ⟨?_, ih hzs⟩
      intro b hb
      rcases mem_insertScoredDesc.mp hb with rfl | hb'
      · exact le_of_lt (Nat.lt_of_not_le hlt)
      · exact hz b hb'

lemma pairwise_sortScoredDesc (l : List (Nat × Row)) :
    (sortScoredDesc l).Pairwise (fun a b => b.1 ≤ a.1) := by
  induction l with
  | nil => simp [sortScoredDesc]
  | cons y ys ih => exact pairwise_insertScoredDesc ih

lemma sortScoredDesc_head_max {l : List (Nat × Row)} {s0 : Nat} {r0 : Row}
    {rest : List (Nat × Row)}
    (hsort : sortScoredDesc l = (s0, r0) :: rest) :
    ∀ x ∈ l, x.1 ≤ s0 := by
  intro x hx
  have hx' : x ∈ (s0, r0) :: rest := by
    rw [← hsort]
    exact mem_sortScoredDesc.mpr hx
  rcases List.mem_cons.mp hx' with rfl | hx''
  · exact le_refl _
  · have hp := pairwise_sortScoredDesc l
    rw [hsort] at hp
    exact (List.pairwise_cons.mp hp).1 x hx''

/-- The filter always returns a non-empty list for non-empty input. -/
lemma filter_candidates_ne_nil (candidates : List Row) (specs : Specs)
    (h : candidates ≠ []) :
    filter_candidates_by_specs candidates specs ≠ [] := by
  unfold filter_candidates_by_specs
  rcases hs : sortScoredDesc
      (candidates.map fun r => ((candidate_matches_specs r specs).2, r)) with
    _ | ⟨⟨s0, r0⟩, rest⟩
  · exact h
  · dsimp only
    split
    · exact h
    · split
      next => exact h
      next hne =>
        rw [Ne, List.take_eq_nil_iff]
        rintro (h12 | hnil)
        · cases h12
        · exact hne (by rw [hnil]; rfl)

lemma joinNL_data_head (x : String) (xs : List String) :
    ∃ t, (joinNL (x :: xs)).data = x.data ++ t := by
  cases xs with
  | nil => exact ⟨[], by simp [joinNL]⟩
  | cons y ys =>
    refine ⟨'\n' :: (joinNL (y :: ys)).data, ?_⟩
    show (x ++ "\n" ++ joinNL (y :: ys)).data = _
    rw [String.data_append, String.data_append]
    simp

lemma ne_err_of_head (s e : String) (c : Char) (t : List Char)
    (hs : s.data = c :: t) (hc : c ≠ '⚠') : s ≠ modelErrMsgPre ++ e := by
  intro h
  obtain ⟨t0, ht0⟩ : ∃ t0, modelErrMsgPre.data = '⚠' :: t0 := ⟨_, rfl⟩
  rw [h, String.data_append, ht0] at hs
  rw [List.cons_append] at hs
  injection hs with h1 _
  exact hc h1.symm

lemma hsPrefix_ne_err (f e : String) :
    ("HS code: " ++ f) ≠ modelErrMsgPre ++ e := by
  refine ne_err_of_head _ e 'H' ("S code: ".data ++ f.data) ?_ (by decide)
  rw [String.data_append]
  rfl

lemma singleResult_ne_err (c : Row) (e : String) :
    singleResult c ≠ modelErrMsgPre ++ e := by
  obtain ⟨t, ht⟩ := joinNL_data_head ("HS code: " ++ format_hs_code c.hs_code)
    (if (collectNames [c]).isEmpty then []
     else namesHeader :: ((collectNames [c]).take 8).map (fun n => "- " ++ n))
  refine ne_err_of_head _ e 'H'
    (("S code: ".data ++ (format_hs_code c.hs_code).data) ++ t) ?_ (by decide)
  show (singleResult c).data = _
  rw [show singleResult c =
      joinNL (("HS code: " ++ format_hs_code c.hs_code) ::
        (if (collectNames [c]).isEmpty then []
         else namesHeader :: ((collectNames [c]).take 8).map (fun n => "- " ++ n)))
    from rfl]
  rw [ht, String.data_append]
  rfl

lemma composeAnswer_ne_err (cands : List Row) (c : Row) (e : String) :
    composeAnswer cands c ≠ modelErrMsgPre ++ e := by
  obtain ⟨t, ht⟩ := joinNL_data_head ("HS code: " ++ format_hs_code c.hs_code)
    (if (collectNames (cands.filter (fun r => digitsOf r == digitsOf c))).isEmpty then []
     else namesHeader ::
       ((collectNames (cands.filter (fun r => digitsOf r == digitsOf c))).take 12).map
         (fun n => "- " ++ n))
  refine ne_err_of_head _ e 'H'
    (("S code: ".data ++ (format_hs_code c.hs_code).data) ++ t) ?_ (by decide)
  show (composeAnswer cands c).data = _
  rw [show composeAnswer cands c =
      joinNL (("HS code: " ++ format_hs_code c.hs_code) ::
        (if (collectNames (cands.filter (fun r => digitsOf r == digitsOf c))).isEmpty then []
         else namesHeader ::
           ((collectNames (cands.filter (fun r => digitsOf r == digitsOf c))).take 12).map
             (fun n => "- " ++ n)))
    from rfl]
  rw [ht, String.data_append]
  rfl

lemma noSuitable_ne_err (e : String) : noSuitableMsg ≠ modelErrMsgPre ++ e :=
  ne_err_of_head _ e 'K' _ rfl (by decide)

lemma ask_failure_ne_err (candidates : List Row) (query e : String)
    (h : candidates ≠ []) :
    (ask_model_for_hs (fun _ => .failure e) query candidates).1 ≠
      modelErrMsgPre ++ e := by
  unfold ask_model_for_hs
  rw [if_neg (by simp [List.isEmpty_iff, h])]
  dsimp only
  split
  next h1 => exact singleResult_ne_err _ e
  · split
    next hnil => exact noSuitable_ne_err e
    next s0 r0 rest hs =>
      split
      next hmargin => exact composeAnswer_ne_err _ _ e
      next hmargin =>
        dsimp only
        split
        next hfe => exact hsPrefix_ne_err _ e
        next hfe =>
          exfalso
          apply filter_candidates_ne_nil candidates (parse_specs_from_query query) h
          have : (filter_candidates_by_specs candidates
              (parse_specs_from_query query)).isEmpty = true := by
            revert hfe
            cases (filter_candidates_by_specs candidates
              (parse_specs_from_query query)).isEmpty
            · intro hfe
              exact absurd rfl hfe
            · intro _
              rfl
          exact List.isEmpty_iff.mp this

/-- C10: for every non-empty candidate list and every parsed spec, shortlist
filtering returns a non-empty list — the candidates unchanged when every
score is 0, otherwise between 1 and 12 positive-scoring rows — and
consequently classify's generic remote-call-failure fallback always has an
entry to return: the branch surfacing the raw error text is unreachable
whenever candidates exist. -/
theorem c10_filter_nonempty :
    ∀ (candidates : List Row) (specs : Specs), candidates ≠ [] →
      filter_candidates_by_specs candidates specs ≠ [] ∧
      ((∀ r ∈ candidates, (candidate_matches_specs r specs).2 = 0) →
        filter_candidates_by_specs candidates specs = candidates) ∧
      ((∃ r ∈ candidates, (candidate_matches_specs r specs).2 ≠ 0) →
        1 ≤ (filter_candidates_by_specs candidates specs).length ∧
        (filter_candidates_by_specs candidates specs).length ≤ 12 ∧
        ∀ r ∈ filter_candidates_by_specs candidates specs,
          0 < (candidate_matches_specs r specs).2) ∧
      (∀ query e : String,
        (ask_model_for_hs (fun _ => .failure e) query candidates).1 ≠
          modelErrMsgPre ++ e) := by
  intro candidates specs hne
  refine ⟨filter_candidates_ne_nil candidates specs hne, ?_, ?_,
    fun query e => ask_failure_ne_err candidates query e hne⟩
  · intro hall
    unfold filter_candidates_by_specs
    rcases hs : sortScoredDesc
        (candidates.map fun r => ((candidate_matches_specs r specs).2, r)) with
      _ | ⟨⟨s0, r0⟩, rest⟩
    · rfl
    · dsimp only
      have hmem : ((s0, r0) : Nat × Row) ∈
          candidates.map fun r => ((candidate_matches_specs r specs).2, r) := by
        rw [← mem_sortScoredDesc (l := candidates.map
          fun r => ((candidate_matches_specs r specs).2, r))]
        rw [hs]
        exact List.mem_cons_self _ _
      obtain ⟨r, hr, heq⟩ := List.mem_map.mp hmem
      have hs0 : s0 = 0 := by
        have h1 : (candidate_matches_specs r specs).2 = s0 :=
          congrArg Prod.fst heq
        rw [← h1]
        exact hall r hr
      rw [if_pos hs0]
  · rintro ⟨r, hr, hnz⟩
    unfold filter_candidates_by_specs
    rcases hs : sortScoredDesc
        (candidates.map fun r => ((candidate_matches_specs r specs).2, r)) with
      _ | ⟨⟨s0, r0⟩, rest⟩
    · exfalso
      have := sortScoredDesc_eq_nil_iff.mp hs
      rw [List.map_eq_nil_iff] at this
      rw [this] at hr
      cases hr
    · dsimp only
      have hrs0 : (candidate_matches_specs r specs).2 ≤ s0 :=
        sortScoredDesc_head_max hs ((candidate_matches_specs r specs).2, r)
          (List.mem_map.mpr ⟨r, hr, rfl⟩)
      have hs0 : ¬ s0 = 0 := by
        intro h0
        rw [h0] at hrs0
        exact hnz (Nat.le_zero.mp hrs0)
      rw [if_neg hs0]
      have hfne : (((s0, r0) :: rest).filter (fun p => decide (0 < p.1))).map Prod.snd ≠ [] := by
        have h0 : ((s0, r0) : Nat × Row) ∈
            ((s0, r0) :: rest).filter (fun p => decide (0 < p.1)) := by
          rw [List.mem_filter]
          exact ⟨List.mem_cons_self _ _, by
            rw [decide_eq_true_eq]
            exact Nat.pos_of_ne_zero hs0⟩
        intro hnil
        rw [List.map_eq_nil_iff] at hnil
        rw [hnil] at h0
        cases h0
      rw [if_neg (by
        intro hemp
        exact hfne (List.isEmpty_iff.mp hemp))]
      refine ⟨?_, List.length_take_le _ _, ?_⟩
      · rw [Nat.one_le_iff_ne_zero]
        intro hlen
        rw [List.length_eq_zero] at hlen
        rw [List.take_eq_nil_iff] at hlen
        rcases hlen with h12 | hnil
        · cases h12
        · exact hfne hnil
      · intro r' hr'
        have hr'' := List.take_subset _ _ hr'
        obtain ⟨p, hp, hpe⟩ := List.mem_map.mp hr''
        rw [List.mem_filter] at hp
        obtain ⟨hp1, hp2⟩ := hp
        have hpm : p ∈ candidates.map
            fun r => ((candidate_matches_specs r specs).2, r) := by
          rw [← mem_sortScoredDesc (l := candidates.map
            fun r => ((candidate_matches_specs r specs).2, r))]
          rw [hs]
          exact hp1
        obtain ⟨rr, _, hrr⟩ := List.mem_map.mp hpm
        have h1 : (candidate_matches_specs rr specs).2 = p.1 :=
          congrArg Prod.fst hrr
        have h2 : rr = p.2 := congrArg Prod.snd hrr
        rw [decide_eq_true_eq] at hp2
        rw [← hpe, ← h2, h1]
        exact hp2

lemma length_insertScoredDesc (y : Nat × Row) (l : List (Nat × Row)) :
    (insertScoredDesc y l).length = l.length + 1 := by
  induction l with
  | nil => rfl
  | cons z zs ih =>
    unfold insertScoredDesc
    split
    · rfl
    · simp [ih]

lemma length_sortScoredDesc (l : List (Nat × Row)) :
    (sortScoredDesc l).length = l.length := by
  induction l with
  | nil => rfl
  | cons y ys ih => simp [sortScoredDesc, length_insertScoredDesc, ih]

/-- C1 amended: when spec filtering leaves more than one candidate and the
top score does not beat the runner-up by the margin of 15, classify issues
exactly one chat-completion request — the compact request whose user
message lists the top 6 scored rows (index, digit-only code, display text
truncated to 40 characters, number/tag hints), with temperature 0.0 and a
maximum of 40 output tokens; when the margin of 15 or more does separate
the top two, classify answers deterministically from the top-scored row
with no request at all. -/
theorem c1_llm_call_amended :
    (∀ (llm : LlmRequest → LlmOutcome) (query : String) (candidates : List Row),
      candidates ≠ [] →
      (filter_candidates_by_specs candidates (parse_specs_from_query query)).length ≠ 1 →
      (∀ (s0 : Nat) (r0 : Row) (s1 : Nat) (r1 : Row) (rest : List (Nat × Row)),
        scoredListOf (parse_specs_from_query query)
            (filter_candidates_by_specs candidates (parse_specs_from_query query)) =
          (s0, r0) :: (s1, r1) :: rest → (s0 : Int) < (s1 : Int) + 15) →
      (ask_model_for_hs llm query candidates).2 = [compactRequest query candidates] ∧
      (compactRequest query candidates).temperature = 0 ∧
      (compactRequest query candidates).maxTokens = 40 ∧
      (compactRequest query candidates).systemPrompt = systemPromptStr ∧
      (compactRequest query candidates).userPrompt =
        mkUserPrompt query
          (build_specs_summary_local (parse_specs_from_query query))
          (build_compact_context_for_llm
            ((scoredListOf (parse_specs_from_query query)
                (filter_candidates_by_specs candidates (parse_specs_from_query query))).map
              Prod.snd) 40 6).1) ∧
    (∀ (llm : LlmRequest → LlmOutcome) (query : String) (candidates : List Row)
      (s0 : Nat) (r0 : Row) (s1 : Nat) (r1 : Row) (rest : List (Nat × Row)),
      candidates ≠ [] →
      (filter_candidates_by_specs candidates (parse_specs_from_query query)).length ≠ 1 →
      scoredListOf (parse_specs_from_query query)
          (filter_candidates_by_specs candidates (parse_specs_from_query query)) =
        (s0, r0) :: (s1, r1) :: rest →
      (s1 : Int) + 15 ≤ (s0 : Int) →
      ask_model_for_hs llm query candidates = (composeAnswer candidates r0, [])) := by
  constructor
  · intro llm query candidates hne hlen hmargin
    refine ⟨?_, rfl, rfl, rfl, rfl⟩
    unfold ask_model_for_hs
    rw [if_neg (by simp [List.isEmpty_iff, hne])]
    dsimp only
    rw [if_neg hlen]
    rcases hsc : scoredListOf (parse_specs_from_query query)
        (filter_candidates_by_specs candidates (parse_specs_from_query query)) with
      _ | ⟨⟨s0, r0⟩, _ | ⟨⟨s1, r1⟩, rest⟩⟩
    · exfalso
      have hfne := filter_candidates_ne_nil candidates (parse_specs_from_query query) hne
      unfold scoredListOf at hsc
      rw [sortScoredDesc_eq_nil_iff, List.map_eq_nil_iff] at hsc
      exact hfne hsc
    · exfalso
      have hlen1 : (filter_candidates_by_specs candidates
          (parse_specs_from_query query)).length = 1 := by
        have hl := congrArg List.length hsc
        unfold scoredListOf at hl
        rw [length_sortScoredDesc, List.length_map] at hl
        simpa using hl
      exact hlen hlen1
    · dsimp only
      rw [if_neg (Int.not_le.mpr (hmargin s0 r0 s1 r1 rest hsc))]
      cases llm (compactRequest query candidates) <;> rfl
  · intro llm query candidates s0 r0 s1 r1 rest hne hlen hsc hmargin
    unfold ask_model_for_hs
    rw [if_neg (by simp [List.isEmpty_iff, hne])]
    dsimp only
    rw [if_neg hlen, hsc]
    dsimp only
    rw [if_pos hmargin]

/-- C1 witness for the amended theorem: a concrete two-candidate run with no
discriminating specs reaches the request path, logging exactly the compact
request with temperature 0 and 40 max tokens; and a concrete run whose top
score (21) beats the runner-up (5) by the margin answers deterministically
from the top row with no request. -/
theorem c1_witness :
    ((ask_model_for_hs (fun _ => .failure "x") "xyz"
        [⟨"4411", "aaa", "", ""⟩, ⟨"4412", "bbb", "", ""⟩]).2 =
      [compactRequest "xyz" [⟨"4411", "aaa", "", ""⟩, ⟨"4412", "bbb", "", ""⟩]] ∧
    (compactRequest "xyz"
      [⟨"4411", "aaa", "", ""⟩, ⟨"4412", "bbb", "", ""⟩]).temperature = 0 ∧
    (compactRequest "xyz"
      [⟨"4411", "aaa", "", ""⟩, ⟨"4412", "bbb", "", ""⟩]).maxTokens = 40) ∧
    ask_model_for_hs (fun _ => .rateLimited) "child 4 mm"
        [⟨"4411", "tam 4 mm", "", ""⟩, ⟨"4412", "child", "", ""⟩] =
      (composeAnswer [⟨"4411", "tam 4 mm", "", ""⟩, ⟨"4412", "child", "", ""⟩]
        ⟨"4411", "tam 4 mm", "", ""⟩, []) := by
  constructor
  · have h := c1_llm_call_amended.1 (fun _ => .failure "x") "xyz"
      [⟨"4411", "aaa", "", ""⟩, ⟨"4412", "bbb", "", ""⟩] (by decide) (by decide)
      (by
        intro s0 r0 s1 r1 rest hsc
        rw [show scoredListOf (parse_specs_from_query "xyz")
            (filter_candidates_by_specs
              [⟨"4411", "aaa", "", ""⟩, ⟨"4412", "bbb", "", ""⟩]
              (parse_specs_from_query "xyz")) =
            [(0, ⟨"4411", "aaa", "", ""⟩), (0, ⟨"4412", "bbb", "", ""⟩)] from by decide]
          at hsc
        injection hsc with h1 h2
        injection h2 with h3 _
        injection h1 with h1a _
        injection h3 with h3a _
        subst h1a
        subst h3a
        decide)
    exact ⟨h.1, h.2.1, h.2.2.1⟩
  · exact c1_llm_call_amended.2 (fun _ => .rateLimited) "child 4 mm"
      [⟨"4411", "tam 4 mm", "", ""⟩, ⟨"4412", "child", "", ""⟩]
      21 ⟨"4411", "tam 4 mm", "", ""⟩ 5 ⟨"4412", "child", "", ""⟩ []
      (by decide) (by decide) (by decide) (by decide)

/-- C1 counterexample: a query and two-candidate list for which filtering
leaves both candidates; classify issues its one request with a maximum of
40 output tokens — not 48 as claimed (and the listing is the compact
40-character form, not the 140-character one). -/
theorem c1_counterexample :
    (filter_candidates_by_specs [⟨"4411", "aaa", "", ""⟩, ⟨"4412", "bbb", "", ""⟩]
      (parse_specs_from_query "xyz")).length = 2 ∧
    (ask_model_for_hs (fun _ => .rateLimited) "xyz"
      [⟨"4411", "aaa", "", ""⟩, ⟨"4412", "bbb", "", ""⟩]).2.map
        LlmRequest.maxTokens = [40] ∧
    (40 : Nat) ≠ 48 := by
  refine ⟨by decide, by decide, by decide⟩

/-- C10 witness: a concrete two-candidate list with an empty spec — the
filtered list is non-empty and the failure fallback avoids the raw error
branch. -/
theorem c10_witness :
    filter_candidates_by_specs [⟨"4411", "aaa", "", ""⟩, ⟨"4412", "bbb", "", ""⟩]
      ⟨[], [], []⟩ ≠ [] ∧
    (ask_model_for_hs (fun _ => .failure "boom") "xyz"
      [⟨"4411", "aaa", "", ""⟩, ⟨"4412", "bbb", "", ""⟩]).1 ≠
      modelErrMsgPre ++ "boom" :=
  ⟨(c10_filter_nonempty [⟨"4411", "aaa", "", ""⟩, ⟨"4412", "bbb", "", ""⟩]
      ⟨[], [], []⟩ (by decide)).1,
   (c10_filter_nonempty [⟨"4411", "aaa", "", ""⟩, ⟨"4412", "bbb", "", ""⟩]
      ⟨[], [], []⟩ (by decide)).2.2.2 "xyz" "boom"⟩

lemma matchDot2_chars {cs g r : List Char} (h : matchDot2 cs = some (g, r)) :
    ∃ x y, g = ['.', x, y] ∧ x.isDigit = true ∧ y.isDigit = true := by
  unfold matchDot2 at h
  split at h
  next x y rest' =>
    split at h
    next hdig =>
      injection h with h'
      injection h' with h1 h2
      rw [Bool.and_eq_true] at hdig
      exact ⟨x, y, h1.symm, hdig.1, hdig.2⟩
    next => cases h
  next => cases h

lemma matchDot2_fst_length {cs : List Char} {g r : List Char}
    (h : matchDot2 cs = some (g, r)) : g.length = 3 := by
  obtain ⟨x, y, rfl, _, _⟩ := matchDot2_chars h
  rfl

lemma hsMatchAt_eq_longest (prev : Option Char) (cs : List Char) :
    hsMatchAt prev cs = longestTok (specTokensAt prev cs) := by
  unfold hsMatchAt specTokensAt
  by_cases hb : (!boundaryOk prev) = true
  · rw [if_pos hb, if_pos hb]
    rfl
  · rw [if_neg hb, if_neg hb]
    rcases cs with _ | ⟨a, _ | ⟨b, _ | ⟨c, _ | ⟨d, rest⟩⟩⟩⟩
    · rfl
    · rfl
    · rfl
    · rfl
    · dsimp only
      by_cases hd : (a.isDigit && b.isDigit && c.isDigit && d.isDigit) = true
      · rw [if_pos hd, if_pos hd]
        rcases h1 : matchDot2 rest with _ | ⟨g1, rest1⟩
        · by_cases hab : afterBoundary rest = true <;>
            simp [h1, hab, longestTok]
        · have hg1 := matchDot2_fst_length h1
          rcases h2 : matchDot2 rest1 with _ | ⟨g2, rest2⟩
          · by_cases hab1 : afterBoundary rest1 = true <;>
              by_cases hab : afterBoundary rest = true <;>
                simp [h2, hab, hab1, longestTok, hg1]
          · have hg2 := matchDot2_fst_length h2
            by_cases hab2 : afterBoundary rest2 = true <;>
              by_cases hab1 : afterBoundary rest1 = true <;>
                by_cases hab : afterBoundary rest = true <;>
                  simp [h2, hab, hab1, hab2, longestTok, hg1, hg2]
      · rw [if_neg hd, if_neg hd]
        rfl

lemma hsSearchAux_eq_spec (cs : List Char) :
    ∀ prev, hsSearchAux prev cs = specFirstHsTokenAux prev cs := by
  induction cs with
  | nil =>
    intro prev
    unfold hsSearchAux specFirstHsTokenAux
    exact hsMatchAt_eq_longest prev []
  | cons c rest ih =>
    intro prev
    unfold hsSearchAux specFirstHsTokenAux
    rw [← hsMatchAt_eq_longest prev (c :: rest)]
    cases h : hsMatchAt prev (c :: rest)
    · simp [h, ih]
    · simp [h]

lemma longestTok_mem {ts : List (List Char)} {t : List Char}
    (h : longestTok ts = some t) : t ∈ ts := by
  unfold longestTok at h
  suffices haux : ∀ (ts : List (List Char)) (acc : Option (List Char)) (t : List Char),
      ts.foldl (fun acc t =>
        match acc with
        | none => some t
        | some u => if u.length < t.length then some t else acc) acc = some t →
      acc = some t ∨ t ∈ ts by
    rcases haux ts none t h with h' | h'
    · cases h'
    · exact h'
  intro ts
  induction ts with
  | nil =>
    intro acc t h
    exact Or.inl h
  | cons x xs ih =>
    intro acc t h
    rcases ih _ t h with h' | h'
    · cases acc with
      | none =>
        dsimp only at h'
        injection h' with h''
        exact Or.inr (by rw [← h'']; exact List.mem_cons_self _ _)
      | some u =>
        dsimp only at h'
        by_cases hlt : u.length < x.length
        · rw [if_pos hlt] at h'
          injection h' with h''
          exact Or.inr (by rw [← h'']; exact List.mem_cons_self _ _)
        · rw [if_neg hlt] at h'
          exact Or.inl h'
    · exact Or.inr (List.mem_cons_of_mem _ h')

lemma mem_specTokensAt_shape {prev : Option Char} {cs tok : List Char}
    (h : tok ∈ specTokensAt prev cs) : specIsHsToken tok = true := by
  unfold specTokensAt at h
  by_cases hb : (!boundaryOk prev) = true
  · rw [if_pos hb] at h
    cases h
  · rw [if_neg hb] at h
    rcases cs with _ | ⟨a, _ | ⟨b, _ | ⟨c, _ | ⟨d, rest⟩⟩⟩⟩
    · cases h
    · cases h
    · cases h
    · cases h
    · dsimp only at h
      by_cases hd : (a.isDigit && b.isDigit && c.isDigit && d.isDigit) = true
      · rw [if_pos hd] at h
        simp only [Bool.and_eq_true] at hd
        obtain ⟨⟨⟨ha, hb'⟩, hc⟩, hd'⟩ := hd
        rcases h1 : matchDot2 rest with _ | ⟨g1, rest1⟩
        · rw [h1] at h
          rw [List.append_nil] at h
          by_cases hab : afterBoundary rest = true
          · rw [if_pos hab, List.mem_singleton] at h
            subst h
            simp [specIsHsToken, ha, hb', hc, hd']
          · rw [if_neg hab] at h
            cases h
        · obtain ⟨x1, y1, rfl, hx1, hy1⟩ := matchDot2_chars h1
          rw [h1] at h
          dsimp only at h
          rcases h2 : matchDot2 rest1 with _ | ⟨g2, rest2⟩
          · rw [h2] at h
            rw [List.append_nil] at h
            rw [List.mem_append] at h
            rcases h with h | h
            · by_cases hab : afterBoundary rest = true
              · rw [if_pos hab, List.mem_singleton] at h
                subst h
                simp [specIsHsToken, ha, hb', hc, hd']
              · rw [if_neg hab] at h
                cases h
            · by_cases hab1 : afterBoundary rest1 = true
              · rw [if_pos hab1, List.mem_singleton] at h
                subst h
                simp [specIsHsToken, ha, hb', hc, hd', hx1, hy1]
              · rw [if_neg hab1] at h
                cases h
          · obtain ⟨x2, y2, rfl, hx2, hy2⟩ := matchDot2_chars h2
            rw [h2] at h
            dsimp only at h
            rw [List.mem_append, List.mem_append] at h
            rcases h with h | h | h
            · by_cases hab : afterBoundary rest = true
              · rw [if_pos hab, List.mem_singleton] at h
                subst h
                simp [specIsHsToken, ha, hb', hc, hd']
              · rw [if_neg hab] at h
                cases h
            · by_cases hab1 : afterBoundary rest1 = true
              · rw [if_pos hab1, List.mem_singleton] at h
                subst h
                simp [specIsHsToken, ha, hb', hc, hd', hx1, hy1]
              · rw [if_neg hab1] at h
                cases h
            · by_cases hab2 : afterBoundary rest2 = true
              · rw [if_pos hab2, List.mem_singleton] at h
                subst h
                simp [specIsHsToken, ha, hb', hc, hd', hx1, hy1, hx2, hy2]
              · rw [if_neg hab2] at h
                cases h
      · rw [if_neg hd] at h
        cases h

lemma hsMatchAt_shape {prev : Option Char} {cs tok : List Char}
    (h : hsMatchAt prev cs = some tok) : specIsHsToken tok = true :=
  mem_specTokensAt_shape
    (longestTok_mem (by rw [← hsMatchAt_eq_longest]; exact h))

lemma hsSearchAux_shape :
    ∀ (cs : List Char) (prev : Option Char) (tok : List Char),
      hsSearchAux prev cs = some tok → specIsHsToken tok = true := by
  intro cs
  induction cs with
  | nil =>
    intro prev tok h
    exact hsMatchAt_shape h
  | cons c rest ih =>
    intro prev tok h
    unfold hsSearchAux at h
    cases h' : hsMatchAt prev (c :: rest)
    · rw [h'] at h
      exact ih (some c) tok h
    · rw [h'] at h
      injection h with h''
      subst h''
      exact hsMatchAt_shape h'

lemma specIsHsToken_digits {tok : List Char} (h : specIsHsToken tok = true) :
    tok.filter Char.isDigit ≠ [] := by
  unfold specIsHsToken at h
  split at h
  · simp only [Bool.and_eq_true] at h
    simp [List.filter_cons, h.1.1.1]
  · simp only [Bool.and_eq_true] at h
    simp [List.filter_cons, h.1.1.1.1.1.1]
  · simp only [Bool.and_eq_true] at h
    simp [List.filter_cons, h.1.1.1.1.1.1.1.1.1]
  · cases h

lemma extract_result_ne_empty {result s : String}
    (h : extract_hs_from_result result = some s) : s ≠ "" := by
  unfold extract_hs_from_result at h
  split at h
  · cases h
  · cases h' : hsSearchAux none result.data
    · rw [h'] at h
      cases h
    · rw [h'] at h
      injection h with h''
      subst h''
      have hshape := hsSearchAux_shape result.data none _ h'
      have hdig := specIsHsToken_digits hshape
      intro hemp
      apply hdig
      have hdata : (stripNonDigits (String.mk _)).data = [] := congrArg String.data hemp
      simpa [stripNonDigits] using hdata

/-- C2 amended: the extractor implements leftmost-longest search for tokens
of the shapes 4 digits, `dddd.dd`, `dddd.dd.dd` delimited by word
boundaries (`specFirstHsToken` operationalises the spec's token grammar);
every returned token has one of those shapes; the web-layer extractor is
the same search followed by digit normalisation; and the web layer fetches
hierarchy info if and only if a token was found.  Undotted 6- or 8-digit
runs are not tokens of this grammar (see the counterexample). -/
theorem c2_extractor_amended :
    (∀ text : String, _extract_hs_from_output text = specFirstHsToken text) ∧
    (∀ (text tok : String), _extract_hs_from_output text = some tok →
      specIsHsToken tok.data = true) ∧
    (∀ result : String, extract_hs_from_result result =
      (_extract_hs_from_output result).map (fun tok => stripNonDigits tok)) ∧
    (∀ result : String,
      hierarchyFetched result = (extract_hs_from_result result).isSome) ∧
    _extract_hs_from_output "a 4411.13.00 b" = some "4411.13.00" ∧
    extract_hs_from_result "HS code: 4411.13" = some "441113" := by
  refine ⟨?_, ?_, ?_, ?_, by decide, by decide⟩
  · intro text
    unfold _extract_hs_from_output specFirstHsToken
    rw [hsSearchAux_eq_spec]
  · intro text tok h
    unfold _extract_hs_from_output at h
    cases h' : hsSearchAux none text.data
    · rw [h'] at h
      cases h
    · rw [h'] at h
      injection h with h''
      subst h''
      exact hsSearchAux_shape text.data none _ h'
  · intro result
    unfold extract_hs_from_result _extract_hs_from_output
    split
    next hres =>
      subst hres
      rfl
    next hres =>
      cases h' : hsSearchAux none result.data <;> simp [h']
  · intro result
    unfold hierarchyFetched
    cases h : extract_hs_from_result result
    · rfl
    · simp [extract_result_ne_empty h]

/-- C2 witness for the amended theorem's soundness conjunct at a concrete
dotted text. -/
theorem c2_witness :
    specIsHsToken ("4411.13.00" : String).data = true :=
  c2_extractor_amended.2.1 "a 4411.13.00 b" "4411.13.00" (by decide)

/-- C2 counterexample: the claim says both `"4411.13.00"` and `"44111300"`
are extracted; in fact the trailing `\b` inside the digit run fails, so an
undotted 8-digit code yields no token at all — the model-client extractor
returns `None`, the web layer extracts nothing from
`"HS code: 44111300"` and fetches no hierarchy. -/
theorem c2_counterexample :
    _extract_hs_from_output "44111300" = none ∧
    extract_hs_from_result "HS code: 44111300" = none ∧
    hierarchyFetched "HS code: 44111300" = false ∧
    _extract_hs_from_output "4411.13.00" = some "4411.13.00" := by
  refine ⟨by decide, by decide, by decide, by decide⟩

end HsWeb
